import Mathlib

/-
  Verification development for the computational core of an offline ray tracer
  written in Rust.  The Rust code's `f64` values are modelled as real numbers,
  so the theorems below speak about the exact-arithmetic behaviour of the
  algorithms; `usize` arithmetic is modelled with explicit wrap-around at
  2 ^ 64.  Random draws made through the thread-local RNG are modelled as
  explicit arguments: leaf sampling functions receive their uniform deviates
  directly, and the recursive radiance estimator receives a countable source
  of deviates (a function from naturals to reals) which it splits between its
  sub-calls with the `rsub` combinator.
-/

set_option maxHeartbeats 1000000

namespace RayTracer

/-- A 3D vector (also used as an RGB radiance accumulator), from `utils.rs`. -/
@[ext] structure Vector where
  x : ℝ
  y : ℝ
  z : ℝ

/-- An RGB color, from `utils.rs`. -/
@[ext] structure Color where
  r : ℝ
  g : ℝ
  b : ℝ

namespace Vector

noncomputable def new (x y z : ℝ) : Vector := ⟨x, y, z⟩

/-- Builds a vector whose three components equal the argument (`Vector::new_eq`). -/
noncomputable def new_eq (a : ℝ) : Vector := ⟨a, a, a⟩

/-- Componentwise maximum of two vectors (`Vector::max`). -/
noncomputable def max (v w : Vector) : Vector :=
  ⟨Max.max v.x w.x, Max.max v.y w.y, Max.max v.z w.z⟩

/-- Squared norm (`Vector::norm_sq`). -/
noncomputable def norm_sq (v : Vector) : ℝ := v.x * v.x + v.y * v.y + v.z * v.z

/-- Norm (`Vector::norm`). -/
noncomputable def norm (v : Vector) : ℝ := Real.sqrt v.norm_sq

/-- Cross product (`Vector::cross`). -/
noncomputable def cross (v w : Vector) : Vector :=
  ⟨v.y * w.z - v.z * w.y, v.z * w.x - v.x * w.z, v.x * w.y - v.y * w.x⟩

/-- Dot product (`Vector::dot`). -/
noncomputable def dot (v w : Vector) : ℝ := v.x * w.x + v.y * w.y + v.z * w.z

noncomputable instance : Add Vector := ⟨fun v w => ⟨v.x + w.x, v.y + w.y, v.z + w.z⟩⟩

noncomputable instance : Sub Vector := ⟨fun v w => ⟨v.x - w.x, v.y - w.y, v.z - w.z⟩⟩

noncomputable instance : Neg Vector := ⟨fun v => ⟨-v.x, -v.y, -v.z⟩⟩

noncomputable instance : HMul Vector ℝ Vector := ⟨fun v k => ⟨v.x * k, v.y * k, v.z * k⟩⟩

noncomputable instance : HMul Vector Color Vector :=
  ⟨fun v c => ⟨v.x * c.r, v.y * c.g, v.z * c.b⟩⟩

noncomputable instance : HDiv Vector ℝ Vector := ⟨fun v k => ⟨v.x / k, v.y / k, v.z / k⟩⟩

/-- Divides the vector by its norm (`Vector::normalize`). -/
noncomputable def normalize (v : Vector) : Vector := v / v.norm

/-- Rotation about the x axis by an angle in degrees (`Vector::rotate_x`). -/
noncomputable def rotate_x (v : Vector) (theta_deg : ℝ) : Vector :=
  let theta_rad := theta_deg * Real.pi / 180
  ⟨v.x, Real.cos theta_rad * v.y - Real.sin theta_rad * v.z,
    Real.sin theta_rad * v.y + Real.cos theta_rad * v.z⟩

/-- Rotation about the y axis by an angle in degrees (`Vector::rotate_y`). -/
noncomputable def rotate_y (v : Vector) (theta_deg : ℝ) : Vector :=
  let theta_rad := theta_deg * Real.pi / 180
  ⟨Real.cos theta_rad * v.x + Real.sin theta_rad * v.z, v.y,
    -Real.sin theta_rad * v.x + Real.cos theta_rad * v.z⟩

/-- Rotation about the z axis by an angle in degrees (`Vector::rotate_z`). -/
noncomputable def rotate_z (v : Vector) (theta_deg : ℝ) : Vector :=
  let theta_rad := theta_deg * Real.pi / 180
  ⟨Real.cos theta_rad * v.x - Real.sin theta_rad * v.y,
    Real.sin theta_rad * v.x + Real.cos theta_rad * v.y, v.z⟩

end Vector

namespace Color

noncomputable def black : Color := ⟨0, 0, 0⟩

noncomputable def white : Color := ⟨1, 1, 1⟩

noncomputable def red : Color := ⟨1, 0, 0⟩

noncomputable instance : Add Color := ⟨fun c d => ⟨c.r + d.r, c.g + d.g, c.b + d.b⟩⟩

noncomputable instance : Sub Color := ⟨fun c d => ⟨c.r - d.r, c.g - d.g, c.b - d.b⟩⟩

noncomputable instance : HMul Color ℝ Color := ⟨fun c k => ⟨c.r * k, c.g * k, c.b * k⟩⟩

noncomputable instance : HDiv Color ℝ Color := ⟨fun c k => ⟨c.r / k, c.g / k, c.b / k⟩⟩

end Color

/-- Material record, from `utils.rs`. -/
structure Material where
  color : Color
  mirror : Bool
  specular_color : Color
  transparent : Bool
  n_object : ℝ
  emissive : Bool
  emissivity : ℝ
  phong : Bool
  phong_exponent : ℝ

namespace Material

/-- `Material::create_mirror`. -/
noncomputable def create_mirror (specular_color : Color) : Material :=
  ⟨Color.black, true, specular_color, false, 1, false, 0, false, 1⟩

/-- `Material::create_emissive`. -/
noncomputable def create_emissive (color : Color) (emissivity : ℝ) : Material :=
  ⟨color, false, Color.black, false, 1, true, emissivity, false, 1⟩

/-- `Material::create_diffuse`. -/
noncomputable def create_diffuse (color : Color) : Material :=
  ⟨color, false, Color.black, false, 1, false, 0, false, 1⟩

end Material

/-- Animation record, from `animate.rs`. -/
structure Animation where
  start_time : ℝ
  end_time : ℝ
  translation : Vector
  scale : ℝ
  rotation_x : ℝ
  rotation_center_x : Vector
  rotation_y : ℝ
  rotation_center_y : Vector
  rotation_z : ℝ
  rotation_center_z : Vector

/-- Intersection record, from `intersection.rs`. -/
structure Intersection where
  point : Vector
  normal : Vector
  material : Material

/-- The self-intersection avoidance offset `0.0001` from `intersection.rs`. -/
noncomputable def nudge_eps : ℝ := 1 / 10000

namespace Intersection

/-- `Intersection::get_point_nudged`: offset the point outward along the normal. -/
noncomputable def get_point_nudged (i : Intersection) : Vector :=
  i.point + i.normal * nudge_eps

/-- `Intersection::get_point_nudged_neg`: offset the point inward along the normal. -/
noncomputable def get_point_nudged_neg (i : Intersection) : Vector :=
  i.point - (i.normal * nudge_eps)

/-- `Intersection::get_inter_nudged`. -/
noncomputable def get_inter_nudged (i : Intersection) : Intersection :=
  ⟨i.point + i.normal * nudge_eps, i.normal, i.material⟩

/-- `Intersection::get_inter_nudged_neg`. -/
noncomputable def get_inter_nudged_neg (i : Intersection) : Intersection :=
  ⟨i.point - (i.normal * nudge_eps), i.normal, i.material⟩

end Intersection

/-- Ray: origin plus direction, from `ray.rs`. -/
@[ext] structure Ray where
  origin : Vector
  direction : Vector

namespace Ray

/-- `Ray::get_point`. -/
noncomputable def get_point (r : Ray) (t : ℝ) : Vector := r.origin + r.direction * t

/-- `Ray::normalize`: normalizes the direction of the ray. -/
noncomputable def normalize (r : Ray) : Ray := ⟨r.origin, r.direction.normalize⟩

/-- `Ray::reflect`: mirror reflection of the ray about the intersection normal. -/
noncomputable def reflect (r : Ray) (inter : Intersection) : Ray :=
  Ray.normalize
    ⟨inter.get_point_nudged,
      r.direction - (inter.normal * (2 : ℝ) * (r.direction.dot inter.normal))⟩

/-- `Ray::translate`. -/
noncomputable def translate (r : Ray) (v : Vector) : Ray := ⟨r.origin + v, r.direction⟩

/-- `Ray::rotate_x`: rotates the ray about the x axis, pivoting about a center. -/
noncomputable def rotate_x (r : Ray) (theta : ℝ) (c : Vector) : Ray :=
  ⟨(r.origin - c).rotate_x theta + c, r.direction.rotate_x theta⟩

/-- `Ray::rotate_y`. -/
noncomputable def rotate_y (r : Ray) (theta : ℝ) (c : Vector) : Ray :=
  ⟨(r.origin - c).rotate_y theta + c, r.direction.rotate_y theta⟩

/-- `Ray::rotate_z`. -/
noncomputable def rotate_z (r : Ray) (theta : ℝ) (c : Vector) : Ray :=
  ⟨(r.origin - c).rotate_z theta + c, r.direction.rotate_z theta⟩

end Ray

/-- The interpolation factor of an animation at a given time, from
`Ray::apply_animations`: once `time` has reached `end_time` the progress is
forced to `1`. -/
noncomputable def anim_progress (a : Animation) (time : ℝ) : ℝ :=
  if a.end_time > time then (time - a.start_time) / (a.end_time - a.start_time) else 1

/-- The skip test of `Ray::apply_animations`: an animation is ignored when
`start_time >= time` or when `start_time > end_time`. -/
def anim_skipped (a : Animation) (time : ℝ) : Prop :=
  a.start_time ≥ time ∨ a.start_time > a.end_time

noncomputable instance (a : Animation) (time : ℝ) : Decidable (anim_skipped a time) := by
  unfold anim_skipped; infer_instance

/-- The per-animation transform of `Ray::apply_animations`: translation scaled by
progress, then the three rotations each scaled by progress, pivoting about their
own centers, in the fixed order translate, rotate-x, rotate-y, rotate-z. -/
noncomputable def anim_step (r : Ray) (a : Animation) (time : ℝ) : Ray :=
  let pg := anim_progress a time
  (((r.translate (a.translation * pg)).rotate_x (a.rotation_x * pg)
        a.rotation_center_x).rotate_y (a.rotation_y * pg)
      a.rotation_center_y).rotate_z (a.rotation_z * pg) a.rotation_center_z

/-- `Ray::apply_animations`.  Note that the loop body of the Rust source reads
`cur_ray = self.translate(...)` — each non-skipped animation is applied to the
original ray `self`, not to the accumulator `cur_ray`. -/
noncomputable def Ray.apply_animations (r : Ray) (animations : List Animation)
    (time : ℝ) : Ray :=
  animations.foldl
    (fun cur a => if anim_skipped a time then cur else anim_step r a time) r

/-- The negated copy of an animation built by `Ray::reverse_animations`. -/
noncomputable def reverse_anim (a : Animation) : Animation :=
  { a with
    rotation_x := a.rotation_x * (-1)
    rotation_y := a.rotation_y * (-1)
    rotation_z := a.rotation_z * (-1)
    translation := a.translation * (-1 : ℝ) }

/-- `Ray::reverse_animations`: negate angles and translation of every animation
(order and centers unchanged) and apply the resulting sequence. -/
noncomputable def Ray.reverse_animations (r : Ray) (animations : List Animation)
    (time : ℝ) : Ray :=
  r.apply_animations (animations.map reverse_anim) time

/-- Modelled from the spec: the sequential composition reading of
`apply_animations`, in which each non-skipped animation transforms the result
of the previous one ("transforms compose in sequence, not simultaneously").
This is the claimed behaviour, kept separate from the source-faithful
`Ray.apply_animations` so the two can be compared. -/
noncomputable def apply_animations_seq (r : Ray) (animations : List Animation)
    (time : ℝ) : Ray :=
  animations.foldl
    (fun cur a => if anim_skipped a time then cur else anim_step cur a time) r

namespace Ray

/-- `Ray::compute_fresnel`: Schlick reflectance, returned as the transmission
threshold `1 - r`. -/
noncomputable def compute_fresnel (r : Ray) (normal : Vector) (n_air n_object : ℝ) : ℝ :=
  let k0 := ((n_air - n_object) / (n_air + n_object)) ^ (2 : ℕ)
  let i : Vector :=
    if r.direction.dot normal < 0 then r.direction * (-1 : ℝ)
    else
      let normal_inv := normal * (-1 : ℝ)
      let scalar := r.direction.dot normal_inv
      r.direction * (n_object / n_air) -
        (normal_inv * (n_object / n_air * scalar +
          Real.sqrt (1 - n_object * n_object / (n_air * n_air) * (1 - scalar * scalar))))
  let i2 := i.normalize
  1 - (k0 + (1 - k0) * (1 - i2.dot normal) ^ (5 : ℕ))

/-- `Ray::refract`: Snell refraction.  The internal uniform draw of the Rust
code is passed explicitly as `rand`; with `fresnel = false` the threshold is
`1`.  Returns `none` on total internal reflection (negative radical). -/
noncomputable def refract (r : Ray) (inter : Intersection) (n_air n_object : ℝ)
    (fresnel : Bool) (rand : ℝ) : Option Ray :=
  let threshold := if fresnel then r.compute_fresnel inter.normal n_air n_object else 1
  if rand < threshold then
    if r.direction.dot inter.normal ≥ 0 then
      let n_1 := n_object
      let n_2 := n_air
      let normal := inter.normal * (-1 : ℝ)
      let scalar := r.direction.dot normal
      let radical := 1 - n_1 * n_1 / (n_2 * n_2) * (1 - scalar * scalar)
      if radical ≥ 0 then
        some (Ray.normalize
          ⟨inter.get_point_nudged,
            r.direction * (n_1 / n_2) -
              (normal * (n_1 / n_2 * scalar + Real.sqrt radical))⟩)
      else none
    else
      let n_1 := n_air
      let n_2 := n_object
      let normal := inter.normal
      let scalar := r.direction.dot normal
      let radical := 1 - n_1 * n_1 / (n_2 * n_2) * (1 - scalar * scalar)
      if radical ≥ 0 then
        some (Ray.normalize
          ⟨inter.get_point_nudged_neg,
            r.direction * (n_1 / n_2) -
              (normal * (n_1 / n_2 * scalar + Real.sqrt radical))⟩)
      else none
  else none

/-- The Snell radical computed inside `Ray::refract`, with the pair of indices
and the normal sign chosen by the entering/exiting test, exactly as in the
source. -/
noncomputable def refract_radical (r : Ray) (inter : Intersection)
    (n_air n_object : ℝ) : ℝ :=
  if r.direction.dot inter.normal ≥ 0 then
    let scalar := r.direction.dot (inter.normal * (-1 : ℝ))
    1 - n_object * n_object / (n_air * n_air) * (1 - scalar * scalar)
  else
    let scalar := r.direction.dot inter.normal
    1 - n_air * n_air / (n_object * n_object) * (1 - scalar * scalar)

/-- `Ray::new_rand_ray`: cosine-weighted hemisphere sample around `n`; the five
uniform draws of the Rust code are explicit arguments. -/
noncomputable def new_rand_ray (center n : Vector) (rand1 rand2 randx randy randz : ℝ) :
    Ray :=
  let sqrt1 := Real.sqrt (1 - rand2)
  let x_local := Real.cos (2 * Real.pi * rand1) * sqrt1
  let y_local := Real.sin (2 * Real.pi * rand1) * sqrt1
  let z_local := Real.sqrt rand2
  let nx := n.cross (Vector.mk randx randy randz).normalize
  let ny := n.cross nx
  ⟨center, (nx * x_local + ny * y_local + n * z_local).normalize⟩

/-- `Ray::new_rand_ray_angle_uniform`: sample a point on a spherical light of
the given surface area. -/
noncomputable def new_rand_ray_angle_uniform (center : Vector) (surface : ℝ)
    (dir : Vector) (rand1 rand2 randx randy randz : ℝ) : Ray :=
  let rayon := Real.sqrt (surface / (4 * Real.pi))
  let sqrt1 := Real.sqrt rand2
  let x_local := Real.cos (2 * Real.pi * rand1) * sqrt1
  let y_local := Real.sin (2 * Real.pi * rand1) * sqrt1
  let z_local := Real.sqrt (1 - rand2)
  let nx := dir.cross (Vector.mk randx randy randz).normalize
  let ny := dir.cross nx
  let dir2 := (nx * x_local + ny * y_local + dir * z_local).normalize
  ⟨center + dir2 * rayon, dir2⟩

/-- `Ray::new_rand_ray_phong`: Phong-lobe-biased hemisphere sample around `dir`. -/
noncomputable def new_rand_ray_phong (center : Vector) (phong_exponent : ℝ)
    (dir : Vector) (rand1 rand2 randx randy randz : ℝ) : Ray :=
  let phong_term := rand2 ^ (1 / (phong_exponent + 1))
  let sqrt1 := Real.sqrt (1 - phong_term * phong_term)
  let x_local := Real.cos (2 * Real.pi * rand1) * sqrt1
  let y_local := Real.sin (2 * Real.pi * rand1) * sqrt1
  let z_local := Real.sqrt (1 - phong_term)
  let nx := dir.cross (Vector.mk randx randy randz).normalize
  let ny := dir.cross nx
  ⟨center, (nx * x_local + ny * y_local + dir * z_local).normalize⟩

end Ray

/-- Point light, from `light.rs`. -/
structure Light where
  center : Vector
  intensity : Vector
  animations : List Animation

namespace Light

/-- `Light::get_intensity_local`: Lambertian-attenuated local intensity of the
(animated) point light. -/
noncomputable def get_intensity_local (l : Light) (point normal : Vector)
    (color : Color) (time : ℝ) : Vector :=
  let fake_ray : Ray := ⟨l.center, point⟩
  let fake_ray := fake_ray.apply_animations l.animations time
  let light_dir := (fake_ray.origin - point).normalize
  let apparent := Max.max (light_dir.dot normal) 0
  ⟨l.intensity.x / (point - fake_ray.origin).norm_sq * apparent * color.r,
    l.intensity.y / (point - fake_ray.origin).norm_sq * apparent * color.g,
    l.intensity.z / (point - fake_ray.origin).norm_sq * apparent * color.b⟩

end Light

/-- `Intersection::get_intensity`. -/
noncomputable def Intersection.get_intensity (i : Intersection) (l : Light)
    (time : ℝ) : Vector :=
  l.get_intensity_local i.point i.normal i.material.color time

/-- The `Object` trait of `object.rs`, modelled as a record of its
capabilities: intersect, material, surface area, center, and the `Animatable`
animation list. -/
structure Obj where
  intersection : Ray → Option Intersection
  get_material : Material
  get_surface_area : ℝ
  get_center : Vector
  get_animations : List Animation

/-- Sphere primitive, from `object/sphere.rs`. -/
structure Sphere where
  center : Vector
  radius : ℝ
  material : Material
  animations : List Animation

namespace Sphere

/-- The discriminant `b*b - 4*a*c` of the sphere/ray quadratic, as computed in
`Sphere::intersection`. -/
noncomputable def delta (s : Sphere) (r : Ray) : ℝ :=
  let vector_co := r.origin - s.center
  let a := r.direction.norm_sq
  let b := 2 * r.direction.dot vector_co
  let c := vector_co.norm_sq - s.radius * s.radius
  b * b - 4 * a * c

/-- The smaller quadratic root `(-b - sqrt delta) / (2 a)` of
`Sphere::intersection`. -/
noncomputable def t1 (s : Sphere) (r : Ray) : ℝ :=
  let vector_co := r.origin - s.center
  let a := r.direction.norm_sq
  let b := 2 * r.direction.dot vector_co
  (-b - Real.sqrt (s.delta r)) / (2 * a)

/-- The larger quadratic root `(-b + sqrt delta) / (2 a)` of
`Sphere::intersection`. -/
noncomputable def t2 (s : Sphere) (r : Ray) : ℝ :=
  let vector_co := r.origin - s.center
  let a := r.direction.norm_sq
  let b := 2 * r.direction.dot vector_co
  (-b + Real.sqrt (s.delta r)) / (2 * a)

/-- `Sphere::intersection`: solve the quadratic, keep the smallest non-negative
root, return the hit point with its outward unit normal; miss when the
discriminant is negative or the larger root is negative. -/
noncomputable def intersection (s : Sphere) (r : Ray) : Option Intersection :=
  if s.delta r ≥ 0 then
    if s.t2 r ≥ 0 then
      let t := if s.t1 r < 0 then s.t2 r else s.t1 r
      let point := r.get_point t
      let normal := (point - s.center).normalize
      some ⟨point, normal, s.material⟩
    else none
  else none

/-- `Sphere::get_surface_area`. -/
noncomputable def get_surface_area (s : Sphere) : ℝ := 4 * Real.pi * s.radius * s.radius

/-- Packaging a sphere as a trait object. -/
noncomputable def to_obj (s : Sphere) : Obj :=
  ⟨s.intersection, s.material, s.get_surface_area, s.center, s.animations⟩

end Sphere

/-- The scene, from `scene.rs`: objects, point lights, emissive light-objects,
and the emissive-surface visibility toggle. -/
structure Scene where
  objects : List Obj
  lights : List Light
  light_objects : List Obj
  show_emissive_surfaces : Bool

/-- The `f64::MAX` constant used to seed the closest-hit search. -/
noncomputable def f64_max : ℝ := (2 ^ 53 - 1) * 2 ^ 971

namespace Scene

/-- `Scene::compute_intersection`: brute-force closest hit.  For each object the
ray is reverse-animated into the object's rest frame, intersected there, and the
squared distance of the hit point from the origin of the re-animated ray is
compared against the running minimum (ties favour later objects). -/
noncomputable def compute_intersection (S : Scene) (ray : Ray) (time : ℝ) :
    Option Intersection :=
  (S.objects.foldl
    (fun acc obj =>
      let r1 := ray.reverse_animations obj.get_animations time
      let col := obj.intersection r1
      let r2 := r1.apply_animations obj.get_animations time
      match col with
      | some inter =>
          if (inter.point - r2.origin).norm_sq ≤ acc.1 then
            ((inter.point - r2.origin).norm_sq, some inter)
          else acc
      | none => acc)
    ((f64_max, none) : ℝ × Option Intersection)).2

/-- `Scene::compute_shadows`: true when the light is visible from the point.
The ray aims from the point at the light's animated position; any hit whose
squared distance from the (re-animated) ray origin is at most the squared
distance from the point to the light's rest-pose center marks the light
shadowed. -/
noncomputable def compute_shadows (S : Scene) (point : Vector) (light : Light)
    (time : ℝ) : Bool :=
  let fake_ray : Ray := ⟨light.center, point⟩
  let fake_ray := fake_ray.apply_animations light.animations time
  let ray := (Ray.mk point (fake_ray.origin - point)).normalize
  S.objects.foldl
    (fun light_visible obj =>
      let r1 := ray.reverse_animations obj.get_animations time
      let col := obj.intersection r1
      let r2 := r1.apply_animations obj.get_animations time
      match col with
      | some inter =>
          if (inter.point - r2.origin).norm_sq ≤ (point - light.center).norm_sq then
            false
          else light_visible
      | none => light_visible)
    true

/-- `Scene::compute_point_light`: sum the local intensities of the unshadowed
point lights. -/
noncomputable def compute_point_light (S : Scene) (inter : Intersection)
    (_nb_iter_max : ℕ) (time : ℝ) : Vector :=
  S.lights.foldl
    (fun cur l =>
      if S.compute_shadows inter.get_point_nudged l time then
        cur + inter.get_intensity l time
      else cur)
    (Vector.mk 0 0 0)

/-- `Scene::compute_emissive`: the directly visible emission term. -/
noncomputable def compute_emissive (inter : Intersection)
    (show_emissive_surfaces : Bool) (_time : ℝ) : Vector :=
  if inter.material.emissive && show_emissive_surfaces then
    Vector.new_eq 1 * inter.material.color * inter.material.emissivity
  else Vector.new_eq 0

end Scene

/-- The light-object selection loop of `Scene::compute_direct`: the first object
whose weight `emissivity / surface_area` is at least `x = rand * sum` is chosen
(the comparison is against the individual weight, not a cumulative sum). -/
noncomputable def select_light_obj (objs : List Obj) (x : ℝ) : Option Obj :=
  match objs with
  | [] => none
  | o :: rest =>
      if x ≤ o.get_material.emissivity / o.get_surface_area then some o
      else select_light_obj rest x

/-- `Scene::compute_direct`: pick one light-object with the selection loop, draw
a point on it by uniform-solid-angle sampling, and if that point is unshadowed
add the area-light estimator contribution (with a Phong-blended color when the
receiver is glossy).  The six uniform draws are read from `s` at indices 0–5. -/
noncomputable def Scene.compute_direct (S : Scene) (ray : Ray)
    (inter : Intersection) (_nb_iter_max : ℕ) (time : ℝ) (s : ℕ → ℝ) : Vector :=
  let rand := s 0
  let probas := S.light_objects.map
    (fun o => o.get_material.emissivity / o.get_surface_area)
  let sum := probas.sum
  match select_light_obj S.light_objects (rand * sum) with
  | none => Vector.mk 0 0 0
  | some light_object_i =>
      let light_center := light_object_i.get_center
      let dir_center_light := (inter.point - light_center).normalize
      let new_ray := Ray.new_rand_ray_angle_uniform light_center
        light_object_i.get_surface_area dir_center_light (s 1) (s 2) (s 3) (s 4) (s 5)
      let rand_result_point := new_ray.origin
      let rand_result_dir := new_ray.direction.normalize
      let rand_result_dir_to_intersection :=
        (inter.point - rand_result_point).normalize
      let d := (inter.point - rand_result_point).norm_sq
      let nudged := inter.get_point_nudged
      let new_light : Light :=
        ⟨rand_result_point,
          Vector.new_eq 1 * light_object_i.get_material.emissivity /
              light_object_i.get_surface_area * light_object_i.get_material.color,
          light_object_i.get_animations⟩
      if S.compute_shadows nudged new_light time then
        if inter.material.phong then
          let reflected_ray := ray.reflect inter
          let phong_term :=
            (reflected_ray.direction.dot rand_result_dir_to_intersection) ^
                inter.material.phong_exponent *
              (inter.material.phong_exponent + 2) / (2 * Real.pi)
          let color_phonged := inter.material.color +
            inter.material.specular_color * (phong_term - 1)
          Vector.new_eq 1 * light_object_i.get_material.emissivity *
              light_object_i.get_material.color *
              Max.max (inter.normal.dot (rand_result_dir_to_intersection * (-1 : ℝ))) 0 *
              light_object_i.get_surface_area *
              Max.max (rand_result_dir.dot rand_result_dir_to_intersection) 0 *
              color_phonged /
            (Max.max (dir_center_light.dot rand_result_dir) 0 * d * 4 * Real.pi)
        else
          Vector.new_eq 1 * light_object_i.get_material.emissivity *
              light_object_i.get_material.color *
              Max.max (inter.normal.dot (rand_result_dir_to_intersection * (-1 : ℝ))) 0 *
              light_object_i.get_surface_area *
              Max.max (rand_result_dir.dot rand_result_dir_to_intersection) 0 *
              inter.material.color /
            (Max.max (dir_center_light.dot rand_result_dir) 0 * d * 4 * Real.pi)
      else Vector.mk 0 0 0

/-- Wrapping decrement of the Rust `usize` bounce counter: `nb_iter_max - 1`
underflows to `2 ^ 64 - 1` when the counter is already zero (release-profile
wrap-around semantics). -/
def wsub (n : ℕ) : ℕ := if n = 0 then 2 ^ 64 - 1 else n - 1

/-- Derives an independent sub-source of uniform deviates for a nested call. -/
def rsub (s : ℕ → ℝ) (k : ℕ) : ℕ → ℝ := fun n => s (Nat.pair k n)

mutual

/-- `Scene::compute_intensity`: the recursive radiance estimator, zero at
`nb_iter_max = 0` and otherwise the sum of the six componentwise-clamped
terms. -/
noncomputable def Scene.compute_intensity (S : Scene) (ray : Ray)
    (inter : Intersection) (nb_iter_max : ℕ) (time : ℝ) (s : ℕ → ℝ) : Vector :=
  if nb_iter_max = 0 then Vector.new_eq 0
  else
    ((S.compute_point_light inter nb_iter_max time).max (Vector.new_eq 0) +
        (S.compute_mirror ray inter nb_iter_max time (rsub s 1)).max (Vector.new_eq 0) +
        (S.compute_transparent ray inter nb_iter_max time (rsub s 2)).max
          (Vector.new_eq 0) +
        (Scene.compute_emissive inter S.show_emissive_surfaces time).max
          (Vector.new_eq 0) +
        (S.compute_indirect ray inter nb_iter_max time (rsub s 4)).max
          (Vector.new_eq 0)) +
      (S.compute_direct ray inter nb_iter_max time (rsub s 5)).max (Vector.new_eq 0)
termination_by 3 * nb_iter_max + 3
decreasing_by all_goals (simp only [wsub]; split <;> omega)

/-- `Scene::compute_mirror`: trace the reflected ray and recurse with the
decremented (wrapping) counter, weighted by the specular color. -/
noncomputable def Scene.compute_mirror (S : Scene) (ray : Ray)
    (inter : Intersection) (nb_iter_max : ℕ) (time : ℝ) (s : ℕ → ℝ) : Vector :=
  if inter.material.mirror then
    let reflected_ray := ray.reflect inter
    match S.compute_intersection reflected_ray time with
    | some i =>
        S.compute_intensity reflected_ray i.get_inter_nudged (wsub nb_iter_max) time
            (rsub s 0) *
          inter.material.specular_color
    | none => Vector.new_eq 0
  else Vector.new_eq 0
termination_by 3 * wsub nb_iter_max + 4
decreasing_by all_goals (simp only [wsub]; split <;> omega)

/-- `Scene::compute_transparent`: attempt refraction; on total internal
reflection re-dispatch as a mirror with the normal flipped if needed, otherwise
trace the refracted ray and recurse with the decremented (wrapping) counter. -/
noncomputable def Scene.compute_transparent (S : Scene) (ray : Ray)
    (inter : Intersection) (nb_iter_max : ℕ) (time : ℝ) (s : ℕ → ℝ) : Vector :=
  if inter.material.transparent then
    let n_object := inter.material.n_object
    match ray.refract inter 1 n_object false (s 0) with
    | none =>
        let inter_as_mirror : Intersection :=
          ⟨inter.point, inter.normal, { inter.material with mirror := true }⟩
        let inter_as_mirror :=
          if ray.direction.dot inter.normal ≥ 0 then
            { inter_as_mirror with normal := inter_as_mirror.normal * (-1 : ℝ) }
          else inter_as_mirror
        S.compute_mirror ray inter_as_mirror nb_iter_max time (rsub s 1)
    | some refracted_ray_a =>
        match S.compute_intersection refracted_ray_a time with
        | some i =>
            S.compute_intensity refracted_ray_a i (wsub nb_iter_max) time (rsub s 2)
        | none => Vector.new_eq 0
  else Vector.new_eq 0
termination_by 3 * wsub nb_iter_max + 5
decreasing_by all_goals (simp only [wsub]; split <;> omega)

/-- `Scene::compute_indirect`: stochastic diffuse/Phong bounce with the mixture
density division; draws are read from `s` at indices 0–5 and the recursive call
uses the sub-source at index 6. -/
noncomputable def Scene.compute_indirect (S : Scene) (ray : Ray)
    (inter : Intersection) (nb_iter_max : ℕ) (time : ℝ) (s : ℕ → ℝ) : Vector :=
  let rand := s 0
  let p : ℝ := if inter.material.phong then 0.5 else 1
  let use_phong : Bool := inter.material.phong && decide (rand ≥ p)
  let reflected_ray := ray.reflect inter
  let new_ray : Ray :=
    if use_phong then
      Ray.new_rand_ray_phong inter.get_point_nudged inter.material.phong_exponent
        reflected_ray.direction (s 1) (s 2) (s 3) (s 4) (s 5)
    else
      Ray.new_rand_ray inter.get_point_nudged inter.normal (s 1) (s 2) (s 3) (s 4) (s 5)
  if use_phong &&
      (decide (new_ray.direction.dot inter.normal ≤ 0) ||
        decide (new_ray.direction.dot reflected_ray.direction ≤ 0)) then
    Vector.new_eq 0
  else
    match S.compute_intersection new_ray time with
    | none => Vector.new_eq 0
    | some i =>
        let indirect_intensity :=
          S.compute_intensity new_ray i (wsub nb_iter_max) time (rsub s 6)
        let proba_phong := (inter.material.phong_exponent + 1) *
          (new_ray.direction.dot reflected_ray.direction) ^
            inter.material.phong_exponent
        let proba_diffuse := inter.normal.dot new_ray.direction
        let proba := p * proba_diffuse + (1 - p) * proba_phong
        if use_phong then
          indirect_intensity * proba_diffuse * (inter.material.phong_exponent + 2) *
              (new_ray.direction.dot reflected_ray.direction) ^
                inter.material.phong_exponent *
              inter.material.specular_color / (2 * Real.pi) / proba
        else
          indirect_intensity * proba_diffuse * inter.material.color / (2 * Real.pi) /
            proba
termination_by 3 * wsub nb_iter_max + 4
decreasing_by all_goals (simp only [wsub]; split <;> omega)

end


/-- A unit translation along x, active on the time interval from 0 to 1, with
no rotation and unit scale. -/
noncomputable def anim_tx : Animation :=
  ⟨0, 1, ⟨1, 0, 0⟩, 1, 0, ⟨0, 0, 0⟩, 0, ⟨0, 0, 0⟩, 0, ⟨0, 0, 0⟩⟩

/-- A unit translation along x combined with a 90 degree z-rotation about the
origin, active on the time interval from 0 to 1. -/
noncomputable def anim_txz : Animation :=
  ⟨0, 1, ⟨1, 0, 0⟩, 1, 0, ⟨0, 0, 0⟩, 0, ⟨0, 0, 0⟩, 90, ⟨0, 0, 0⟩⟩

/-- A ray at the origin pointing along the x axis. -/
noncomputable def ray_ex : Ray := ⟨⟨0, 0, 0⟩, ⟨1, 0, 0⟩⟩

/-- A ray travelling straight down onto a horizontal surface. -/
noncomputable def refr_ray : Ray := ⟨⟨0, 0, 1⟩, ⟨0, 0, -1⟩⟩

/-- A horizontal surface intersection at the origin with upward normal. -/
noncomputable def refr_inter : Intersection :=
  ⟨⟨0, 0, 0⟩, ⟨0, 0, 1⟩, Material.create_diffuse Color.red⟩

/-- An emissive red unit sphere at the origin (emissivity 1). -/
noncomputable def emissive_sphere : Sphere :=
  ⟨⟨0, 0, 0⟩, 1, Material.create_emissive Color.red 1, []⟩

/-- A scene holding only the emissive sphere as a regular object, with emissive
surfaces directly visible. -/
noncomputable def mirror_scene : Scene := ⟨[emissive_sphere.to_obj], [], [], true⟩

/-- A mirror intersection two units to the right of the sphere, its normal
pointing back along x so the reflected ray returns into the sphere. -/
noncomputable def mirror_inter : Intersection :=
  ⟨⟨2, 0, 0⟩, ⟨1, 0, 0⟩, Material.create_mirror Color.white⟩

/-- The empty scene. -/
noncomputable def empty_scene : Scene := ⟨[], [], [], false⟩

/-- The constant-zero random source. -/
noncomputable def zero_tape : ℕ → ℝ := fun _ => 0

/-- The animated position of a point light at a given time, as computed by the
fake-ray construction inside `compute_shadows` (the auxiliary vector fills the
unused direction slot of the fake ray). -/
noncomputable def light_animated_pos (l : Light) (aux : Vector) (t : ℝ) : Vector :=
  ((Ray.mk l.center aux).apply_animations l.animations t).origin

/-- The shadow ray built by `compute_shadows`: from the point toward the
light's animated position, normalized. -/
noncomputable def shadow_test_ray (point : Vector) (l : Light) (t : ℝ) : Ray :=
  Ray.normalize (Ray.mk point (light_animated_pos l point t - point))

/-- The occlusion reading of claim C6: some object's intersection along the
shadow ray lies strictly closer to the point than the light's animated
position. -/
def claim_occluder (S : Scene) (point : Vector) (l : Light) (t : ℝ) : Prop :=
  ∃ o ∈ S.objects, ∃ i, o.intersection (shadow_test_ray point l t) = some i ∧
    (i.point - point).norm_sq < (light_animated_pos l point t - point).norm_sq

/-- An un-animated point light two units along x from the origin. -/
noncomputable def tie_light : Light := ⟨⟨2, 0, 0⟩, ⟨1, 1, 1⟩, []⟩

/-- A unit sphere whose near surface is exactly at the light's position. -/
noncomputable def tie_sphere : Sphere :=
  ⟨⟨3, 0, 0⟩, 1, Material.create_diffuse Color.red, []⟩

/-- A scene where the only object touches the light exactly. -/
noncomputable def tie_scene : Scene := ⟨[tie_sphere.to_obj], [tie_light], [], false⟩

/-- Modelled from the spec: the single discrete inverse-CDF sample over the
cumulative sum of the weights `emissivity / surface_area` — the first object
whose cumulative weight reaches `x = rand * sum` (here realised by subtracting
each passed weight from `x`).  This is the claimed selection rule, kept
separate from the source-faithful `select_light_obj` so the two can be
compared. -/
noncomputable def select_light_obj_cdf (objs : List Obj) (x : ℝ) : Option Obj :=
  match objs with
  | [] => none
  | o :: rest =>
      let w := o.get_material.emissivity / o.get_surface_area
      if x ≤ w then some o else select_light_obj_cdf rest (x - w)

/-- An emissive unit sphere of emissivity 1. -/
noncomputable def light_sphere_a : Sphere :=
  ⟨⟨0, 0, 10⟩, 1, Material.create_emissive Color.red 1, []⟩

/-- An emissive unit sphere of emissivity 3. -/
noncomputable def light_sphere_b : Sphere :=
  ⟨⟨0, 0, -10⟩, 1, Material.create_emissive Color.red 3, []⟩

/-- A scene with two registered light objects of weights 1/(4 pi) and
3/(4 pi). -/
noncomputable def two_light_scene : Scene :=
  ⟨[], [], [light_sphere_a.to_obj, light_sphere_b.to_obj], false⟩

/-- A diffuse intersection at the origin facing up. -/
noncomputable def dummy_inter : Intersection :=
  ⟨⟨0, 0, 0⟩, ⟨0, 0, 1⟩, Material.create_diffuse Color.red⟩

/-- A random source whose first draw is 0.9 and all others 0. -/
noncomputable def tape09 : ℕ → ℝ := fun n => if n = 0 then 9 / 10 else 0

/-- The unit sphere at the origin. -/
noncomputable def unit_sphere : Sphere :=
  ⟨⟨0, 0, 0⟩, 1, Material.create_diffuse Color.red, []⟩

/-- A ray outside the unit sphere aimed at its center. -/
noncomputable def ray_w : Ray := ⟨⟨2, 0, 0⟩, ⟨-1, 0, 0⟩⟩

/- ===================================================================
   Theorems.
   =================================================================== -/

@[simp] theorem Vector.add_def (v w : Vector) :
    v + w = ⟨v.x + w.x, v.y + w.y, v.z + w.z⟩ := rfl

@[simp] theorem Vector.sub_def (v w : Vector) :
    v - w = ⟨v.x - w.x, v.y - w.y, v.z - w.z⟩ := rfl

@[simp] theorem Vector.mul_real_def (v : Vector) (k : ℝ) :
    v * k = Vector.mk (v.x * k) (v.y * k) (v.z * k) := rfl

@[simp] theorem Vector.mul_color_def (v : Vector) (c : Color) :
    v * c = Vector.mk (v.x * c.r) (v.y * c.g) (v.z * c.b) := rfl

@[simp] theorem Vector.div_real_def (v : Vector) (k : ℝ) :
    v / k = Vector.mk (v.x / k) (v.y / k) (v.z / k) := rfl

@[simp] theorem color_add_def (c d : Color) :
    c + d = ⟨c.r + d.r, c.g + d.g, c.b + d.b⟩ := rfl

@[simp] theorem color_mul_real_def (c : Color) (k : ℝ) :
    c * k = Color.mk (c.r * k) (c.g * k) (c.b * k) := rfl

theorem Vector.norm_sq_rotate_x (v : Vector) (theta : ℝ) :
    (v.rotate_x theta).norm_sq = v.norm_sq := by
  unfold Vector.rotate_x Vector.norm_sq
  have h := Real.sin_sq_add_cos_sq (theta * Real.pi / 180)
  dsimp only
  linear_combination (v.y * v.y + v.z * v.z) * h

theorem Vector.norm_sq_rotate_y (v : Vector) (theta : ℝ) :
    (v.rotate_y theta).norm_sq = v.norm_sq := by
  unfold Vector.rotate_y Vector.norm_sq
  have h := Real.sin_sq_add_cos_sq (theta * Real.pi / 180)
  dsimp only
  linear_combination (v.x * v.x + v.z * v.z) * h

theorem Vector.norm_sq_rotate_z (v : Vector) (theta : ℝ) :
    (v.rotate_z theta).norm_sq = v.norm_sq := by
  unfold Vector.rotate_z Vector.norm_sq
  have h := Real.sin_sq_add_cos_sq (theta * Real.pi / 180)
  dsimp only
  linear_combination (v.x * v.x + v.y * v.y) * h

theorem anim_step_direction (r : Ray) (a : Animation) (t : ℝ) :
    (anim_step r a t).direction =
      ((r.direction.rotate_x (a.rotation_x * anim_progress a t)).rotate_y
          (a.rotation_y * anim_progress a t)).rotate_z
        (a.rotation_z * anim_progress a t) := rfl

theorem anim_step_dir_norm_sq (r : Ray) (a : Animation) (t : ℝ) :
    (anim_step r a t).direction.norm_sq = r.direction.norm_sq := by
  rw [anim_step_direction, Vector.norm_sq_rotate_z, Vector.norm_sq_rotate_y,
    Vector.norm_sq_rotate_x]

theorem apply_animations_dir_norm_sq (r : Ray) (anims : List Animation) (t : ℝ) :
    ((r.apply_animations anims t).direction).norm_sq = r.direction.norm_sq := by
  unfold Ray.apply_animations
  suffices h : ∀ cur : Ray, cur.direction.norm_sq = r.direction.norm_sq →
      ((anims.foldl
          (fun cur a => if anim_skipped a t then cur else anim_step r a t)
          cur).direction).norm_sq = r.direction.norm_sq by
    exact h r rfl
  induction anims with
  | nil => intro cur hcur; simpa using hcur
  | cons a rest ih =>
      intro cur hcur
      simp only [List.foldl_cons]
      by_cases hsk : anim_skipped a t
      · rw [if_pos hsk]; exact ih cur hcur
      · rw [if_neg hsk]; exact ih _ (anim_step_dir_norm_sq r a t)

/-- Claim C10: `apply_animations` and `reverse_animations` preserve the norm of
the ray's direction — translation leaves the direction untouched and each axis
rotation is an isometry, so a unit-length direction stays unit length without
renormalization. -/
theorem animations_preserve_direction_norm (r : Ray) (anims : List Animation)
    (t : ℝ) :
    ((r.apply_animations anims t).direction).norm = r.direction.norm ∧
      ((r.reverse_animations anims t).direction).norm = r.direction.norm := by
  constructor
  · unfold Vector.norm
    rw [apply_animations_dir_norm_sq]
  · unfold Ray.reverse_animations Vector.norm
    rw [apply_animations_dir_norm_sq]

/-- Claim C3: the recursive radiance estimator with `remaining_bounces = 0`
returns zero radiance, regardless of the scene, ray, intersection, time, and
random source. -/
theorem compute_intensity_zero_bounces (S : Scene) (ray : Ray)
    (inter : Intersection) (t : ℝ) (s : ℕ → ℝ) :
    S.compute_intensity ray inter 0 t s = Vector.new_eq 0 := by
  rw [Scene.compute_intensity]
  simp

theorem Vector.max_zero_x (v : Vector) : (v.max (Vector.new_eq 0)).x = Max.max v.x 0 := rfl

theorem Vector.max_zero_y (v : Vector) : (v.max (Vector.new_eq 0)).y = Max.max v.y 0 := rfl

theorem Vector.max_zero_z (v : Vector) : (v.max (Vector.new_eq 0)).z = Max.max v.z 0 := rfl

/-- Claim C4: with at least one remaining bounce, the radiance estimator is the
sum of exactly six componentwise non-negative-clamped terms (point-light,
mirror, transparent, emissive, indirect, direct); consequently every component
of the returned radiance is non-negative. -/
theorem compute_intensity_succ_structure (S : Scene) (ray : Ray)
    (inter : Intersection) (n : ℕ) (t : ℝ) (s : ℕ → ℝ) :
    S.compute_intensity ray inter (n + 1) t s =
        (S.compute_point_light inter (n + 1) t).max (Vector.new_eq 0) +
          (S.compute_mirror ray inter (n + 1) t (rsub s 1)).max (Vector.new_eq 0) +
          (S.compute_transparent ray inter (n + 1) t (rsub s 2)).max (Vector.new_eq 0) +
          (Scene.compute_emissive inter S.show_emissive_surfaces t).max
            (Vector.new_eq 0) +
          (S.compute_indirect ray inter (n + 1) t (rsub s 4)).max (Vector.new_eq 0) +
          (S.compute_direct ray inter (n + 1) t (rsub s 5)).max (Vector.new_eq 0) ∧
      0 ≤ (S.compute_intensity ray inter (n + 1) t s).x ∧
      0 ≤ (S.compute_intensity ray inter (n + 1) t s).y ∧
      0 ≤ (S.compute_intensity ray inter (n + 1) t s).z := by
  have hstruct : S.compute_intensity ray inter (n + 1) t s =
      (S.compute_point_light inter (n + 1) t).max (Vector.new_eq 0) +
        (S.compute_mirror ray inter (n + 1) t (rsub s 1)).max (Vector.new_eq 0) +
        (S.compute_transparent ray inter (n + 1) t (rsub s 2)).max (Vector.new_eq 0) +
        (Scene.compute_emissive inter S.show_emissive_surfaces t).max
          (Vector.new_eq 0) +
        (S.compute_indirect ray inter (n + 1) t (rsub s 4)).max (Vector.new_eq 0) +
        (S.compute_direct ray inter (n + 1) t (rsub s 5)).max (Vector.new_eq 0) := by
    rw [Scene.compute_intensity]
    simp only [Nat.succ_ne_zero, if_false]
  refine ⟨hstruct, ?_, ?_, ?_⟩ <;>
    · rw [hstruct]
      simp only [Vector.add_def]
      repeat' apply add_nonneg
      all_goals exact le_max_right _ 0

theorem Vector.rotate_x_zero (v : Vector) : v.rotate_x 0 = v := by
  unfold Vector.rotate_x
  norm_num

theorem Vector.rotate_y_zero (v : Vector) : v.rotate_y 0 = v := by
  unfold Vector.rotate_y
  norm_num

theorem Vector.rotate_z_zero (v : Vector) : v.rotate_z 0 = v := by
  unfold Vector.rotate_z
  norm_num

theorem ray_rotate_x_zero (r : Ray) (c : Vector) : r.rotate_x 0 c = r := by
  unfold Ray.rotate_x
  rw [Vector.rotate_x_zero, Vector.rotate_x_zero]
  ext <;> simp

theorem ray_rotate_y_zero (r : Ray) (c : Vector) : r.rotate_y 0 c = r := by
  unfold Ray.rotate_y
  rw [Vector.rotate_y_zero, Vector.rotate_y_zero]
  ext <;> simp

theorem ray_rotate_z_zero (r : Ray) (c : Vector) : r.rotate_z 0 c = r := by
  unfold Ray.rotate_z
  rw [Vector.rotate_z_zero, Vector.rotate_z_zero]
  ext <;> simp

theorem anim_tx_not_skipped : ¬ anim_skipped anim_tx 1 := by
  norm_num [anim_skipped, anim_tx]

theorem anim_step_tx (r : Ray) : anim_step r anim_tx 1 = Ray.mk
    (Vector.mk (r.origin.x + 1) (r.origin.y + 0) (r.origin.z + 0)) r.direction := by
  unfold anim_step anim_progress
  norm_num [anim_tx]
  rw [ray_rotate_x_zero, ray_rotate_y_zero, ray_rotate_z_zero]
  ext <;> simp [Ray.translate]

/-- Claim C1: refutation of the sequential-composition reading of
`apply_animations`.  The Rust loop body applies each active animation to the
original ray (`cur_ray = self.translate(...)`), so with two identical unit
translations the code moves the origin by one unit only, while the sequential
composition described by the spec (here `apply_animations_seq`) moves it by
two; the two functions disagree on this input. -/
theorem apply_animations_not_sequential :
    (ray_ex.apply_animations [anim_tx, anim_tx] 1).origin = Vector.mk 1 0 0 ∧
      (apply_animations_seq ray_ex [anim_tx, anim_tx] 1).origin = Vector.mk 2 0 0 ∧
      ray_ex.apply_animations [anim_tx, anim_tx] 1 ≠
        apply_animations_seq ray_ex [anim_tx, anim_tx] 1 := by
  have h1 : ray_ex.apply_animations [anim_tx, anim_tx] 1 =
      Ray.mk (Vector.mk 1 0 0) (Vector.mk 1 0 0) := by
    unfold Ray.apply_animations
    simp only [List.foldl_cons, List.foldl_nil, if_neg anim_tx_not_skipped,
      anim_step_tx]
    norm_num [ray_ex]
  have h2 : apply_animations_seq ray_ex [anim_tx, anim_tx] 1 =
      Ray.mk (Vector.mk 2 0 0) (Vector.mk 1 0 0) := by
    unfold apply_animations_seq
    simp only [List.foldl_cons, List.foldl_nil, if_neg anim_tx_not_skipped,
      anim_step_tx]
    norm_num [ray_ex]
  refine ⟨by rw [h1], by rw [h2], ?_⟩
  rw [h1, h2]
  intro h
  have hx := congrArg (fun r => r.origin.x) h
  norm_num at hx

theorem Vector.rotate_z_90 (v : Vector) : v.rotate_z 90 = ⟨-v.y, v.x, v.z⟩ := by
  unfold Vector.rotate_z
  have h : (90 : ℝ) * Real.pi / 180 = Real.pi / 2 := by ring
  rw [h]
  norm_num [Real.cos_pi_div_two, Real.sin_pi_div_two]

theorem Vector.rotate_z_neg90 (v : Vector) : v.rotate_z (-90) = ⟨v.y, -v.x, v.z⟩ := by
  unfold Vector.rotate_z
  have h : (-90 : ℝ) * Real.pi / 180 = -(Real.pi / 2) := by ring
  rw [h]
  norm_num [Real.cos_neg, Real.sin_neg, Real.cos_pi_div_two, Real.sin_pi_div_two]

theorem anim_txz_not_skipped : ¬ anim_skipped anim_txz 1 := by
  norm_num [anim_skipped, anim_txz]

theorem rev_txz_not_skipped : ¬ anim_skipped (reverse_anim anim_txz) 1 := by
  norm_num [anim_skipped, reverse_anim, anim_txz]

theorem anim_step_txz (r : Ray) : anim_step r anim_txz 1 =
    Ray.mk (Vector.mk (-(r.origin.y)) (r.origin.x + 1) (r.origin.z))
      (Vector.mk (-(r.direction.y)) (r.direction.x) (r.direction.z)) := by
  unfold anim_step anim_progress
  norm_num [anim_txz]
  rw [ray_rotate_x_zero, ray_rotate_y_zero]
  unfold Ray.rotate_z Ray.translate
  simp only [Vector.rotate_z_90]
  ext <;> simp

theorem anim_step_rev_txz (r : Ray) : anim_step r (reverse_anim anim_txz) 1 =
    Ray.mk (Vector.mk (r.origin.y) (1 - r.origin.x) (r.origin.z))
      (Vector.mk (r.direction.y) (-(r.direction.x)) (r.direction.z)) := by
  unfold anim_step anim_progress reverse_anim
  norm_num [anim_txz]
  rw [ray_rotate_x_zero, ray_rotate_y_zero]
  unfold Ray.rotate_z Ray.translate
  simp only [Vector.rotate_z_neg90]
  ext <;> simp <;> ring

/-- Claim C5: refutation of the round-trip property.  `reverse_animations`
negates angles and translation but keeps the operation order
translate-then-rotate, so it is not the inverse of `apply_animations`: for a
single animation combining a unit x-translation with a 90 degree z-rotation,
applying and then reversing at the same time moves the ray origin from
(0,0,0) to (1,1,0) instead of returning it. -/
theorem apply_then_reverse_not_roundtrip :
    ((ray_ex.apply_animations [anim_txz] 1).reverse_animations [anim_txz] 1).origin =
        Vector.mk 1 1 0 ∧
      ((ray_ex.apply_animations [anim_txz] 1).reverse_animations [anim_txz] 1).origin ≠
        ray_ex.origin := by
  have h1 : ray_ex.apply_animations [anim_txz] 1 =
      Ray.mk (Vector.mk 0 1 0) (Vector.mk 0 1 0) := by
    unfold Ray.apply_animations
    simp only [List.foldl_cons, List.foldl_nil, if_neg anim_txz_not_skipped,
      anim_step_txz]
    norm_num [ray_ex]
  have h2 : (Ray.mk (Vector.mk 0 1 0) (Vector.mk 0 1 0)).reverse_animations
      [anim_txz] 1 = Ray.mk (Vector.mk 1 1 0) (Vector.mk 1 0 0) := by
    unfold Ray.reverse_animations Ray.apply_animations
    simp only [List.map_cons, List.map_nil, List.foldl_cons, List.foldl_nil,
      if_neg rev_txz_not_skipped, anim_step_rev_txz]
    norm_num
  rw [h1, h2]
  refine ⟨rfl, ?_⟩
  intro h
  have hx := congrArg (fun v => v.x) h
  norm_num [ray_ex] at hx

/-- Claim C9: with Fresnel weighting disabled, `refract` returns no ray exactly
when the Snell radical is negative (total internal reflection), and returns a
refracted ray whenever the radical is non-negative, for every value of the
internal uniform draw in [0,1). -/
theorem refract_no_fresnel_none_iff (r : Ray) (inter : Intersection)
    (n_air n_object rand : ℝ) (h0 : 0 ≤ rand) (h1 : rand < 1) :
    (r.refract inter n_air n_object false rand = none ↔
        r.refract_radical inter n_air n_object < 0) ∧
      ((r.refract inter n_air n_object false rand).isSome ↔
        0 ≤ r.refract_radical inter n_air n_object) := by
  unfold Ray.refract Ray.refract_radical
  by_cases hd : r.direction.dot inter.normal ≥ 0
  · simp only [Bool.false_eq_true, if_false, if_pos h1, if_pos hd]
    by_cases hr : (1 : ℝ) - n_object * n_object / (n_air * n_air) *
        (1 - r.direction.dot (inter.normal * (-1 : ℝ)) *
          r.direction.dot (inter.normal * (-1 : ℝ))) ≥ 0
    · simp only [if_pos hr]
      refine ⟨⟨fun h => by simp at h, fun h => absurd hr (not_le.mpr h)⟩,
        ⟨fun _ => hr, fun _ => by simp⟩⟩
    · simp only [if_neg hr]
      refine ⟨⟨fun _ => not_le.mp hr, fun _ => by simp⟩,
        ⟨fun h => by simp at h, fun h => absurd h hr⟩⟩
  · simp only [Bool.false_eq_true, if_false, if_pos h1, if_neg hd]
    by_cases hr : (1 : ℝ) - n_air * n_air / (n_object * n_object) *
        (1 - r.direction.dot inter.normal * r.direction.dot inter.normal) ≥ 0
    · simp only [if_pos hr]
      refine ⟨⟨fun h => by simp at h, fun h => absurd hr (not_le.mpr h)⟩,
        ⟨fun _ => hr, fun _ => by simp⟩⟩
    · simp only [if_neg hr]
      refine ⟨⟨fun _ => not_le.mp hr, fun _ => by simp⟩,
        ⟨fun h => by simp at h, fun h => absurd h hr⟩⟩

/-- Witness for claim C9: a downward ray entering a glass half-space with
indices 1 and 3/2 and draw 0 satisfies the hypotheses, and the radical is
non-negative there, so a refracted ray is returned. -/
theorem refract_no_fresnel_none_iff_witness :
    ((0 : ℝ) ≤ 0 ∧ (0 : ℝ) < 1) ∧
      ((refr_ray.refract refr_inter 1 (3 / 2) false 0 = none ↔
          refr_ray.refract_radical refr_inter 1 (3 / 2) < 0) ∧
        ((refr_ray.refract refr_inter 1 (3 / 2) false 0).isSome ↔
          0 ≤ refr_ray.refract_radical refr_inter 1 (3 / 2))) :=
  ⟨⟨le_refl 0, by norm_num⟩,
    refract_no_fresnel_none_iff refr_ray refr_inter 1 (3 / 2) 0 (le_refl 0)
      (by norm_num)⟩

theorem Ray.apply_animations_nil (r : Ray) (t : ℝ) : r.apply_animations [] t = r := rfl

theorem Ray.reverse_animations_nil (r : Ray) (t : ℝ) :
    r.reverse_animations [] t = r := rfl

theorem sqrt_four : Real.sqrt 4 = 2 := by
  rw [show (4 : ℝ) = 2 ^ 2 by norm_num, Real.sqrt_sq (by norm_num : (0 : ℝ) ≤ 2)]

theorem compute_intensity_x_ge_emissive (S : Scene) (ray : Ray)
    (inter : Intersection) (n : ℕ) (t : ℝ) (s : ℕ → ℝ) (hn : n ≠ 0) :
    ((Scene.compute_emissive inter S.show_emissive_surfaces t).max
        (Vector.new_eq 0)).x ≤ (S.compute_intensity ray inter n t s).x := by
  rw [Scene.compute_intensity, if_neg hn]
  simp only [Vector.add_def]
  have h1 : (0 : ℝ) ≤ ((S.compute_point_light inter n t).max (Vector.new_eq 0)).x :=
    le_max_right _ 0
  have h2 : (0 : ℝ) ≤
      ((S.compute_mirror ray inter n t (rsub s 1)).max (Vector.new_eq 0)).x :=
    le_max_right _ 0
  have h3 : (0 : ℝ) ≤
      ((S.compute_transparent ray inter n t (rsub s 2)).max (Vector.new_eq 0)).x :=
    le_max_right _ 0
  have h5 : (0 : ℝ) ≤
      ((S.compute_indirect ray inter n t (rsub s 4)).max (Vector.new_eq 0)).x :=
    le_max_right _ 0
  have h6 : (0 : ℝ) ≤
      ((S.compute_direct ray inter n t (rsub s 5)).max (Vector.new_eq 0)).x :=
    le_max_right _ 0
  linarith

theorem emissive_sphere_animations : emissive_sphere.animations = [] := rfl

theorem reflect_mirror_inter : ray_ex.reflect mirror_inter =
    Ray.mk ⟨20001 / 10000, 0, 0⟩ ⟨-1, 0, 0⟩ := by
  unfold Ray.reflect Ray.normalize Intersection.get_point_nudged Vector.normalize
    Vector.norm Vector.norm_sq Vector.dot nudge_eps
  norm_num [ray_ex, mirror_inter, Material.create_mirror, Real.sqrt_one]

theorem emissive_sphere_delta :
    emissive_sphere.delta (Ray.mk ⟨20001 / 10000, 0, 0⟩ ⟨-1, 0, 0⟩) = 4 := by
  unfold Sphere.delta Vector.norm_sq Vector.dot
  norm_num [emissive_sphere]

theorem emissive_sphere_t1 :
    emissive_sphere.t1 (Ray.mk ⟨20001 / 10000, 0, 0⟩ ⟨-1, 0, 0⟩) = 10001 / 10000 := by
  unfold Sphere.t1
  rw [emissive_sphere_delta, sqrt_four]
  unfold Vector.norm_sq Vector.dot
  norm_num [emissive_sphere]

theorem emissive_sphere_t2 :
    emissive_sphere.t2 (Ray.mk ⟨20001 / 10000, 0, 0⟩ ⟨-1, 0, 0⟩) = 30001 / 10000 := by
  unfold Sphere.t2
  rw [emissive_sphere_delta, sqrt_four]
  unfold Vector.norm_sq Vector.dot
  norm_num [emissive_sphere]

theorem emissive_sphere_hit :
    emissive_sphere.intersection (Ray.mk ⟨20001 / 10000, 0, 0⟩ ⟨-1, 0, 0⟩) =
      some ⟨⟨1, 0, 0⟩, ⟨1, 0, 0⟩, Material.create_emissive Color.red 1⟩ := by
  unfold Sphere.intersection
  rw [emissive_sphere_delta, emissive_sphere_t1, emissive_sphere_t2]
  norm_num
  unfold Ray.get_point Vector.normalize Vector.norm Vector.norm_sq
  norm_num [emissive_sphere, Real.sqrt_one]

theorem mirror_scene_hit :
    mirror_scene.compute_intersection (Ray.mk ⟨20001 / 10000, 0, 0⟩ ⟨-1, 0, 0⟩) 0 =
      some ⟨⟨1, 0, 0⟩, ⟨1, 0, 0⟩, Material.create_emissive Color.red 1⟩ := by
  unfold Scene.compute_intersection
  simp only [mirror_scene, Sphere.to_obj, List.foldl_cons, List.foldl_nil,
    emissive_sphere_animations, Ray.reverse_animations_nil, Ray.apply_animations_nil,
    emissive_sphere_hit]
  rw [if_pos]
  · unfold f64_max Vector.norm_sq
    norm_num

/-- Claim C7 counterexample: with the mirror flag set and a reflected ray that
hits an object, `compute_mirror` called with zero remaining bounces does not
return zero radiance: the `usize` counter wraps around (`0 - 1`) and the
recursion continues, so the returned radiance is at least the emissive term of
the hit sphere, which is positive.  (In a debug build the same call would
panic on the underflow instead.) -/
theorem compute_mirror_zero_bounces_nonzero :
    mirror_scene.compute_mirror ray_ex mirror_inter 0 0 zero_tape ≠
      Vector.new_eq 0 := by
  have hm : mirror_inter.material.mirror = true := rfl
  rw [Scene.compute_mirror]
  simp only [hm, if_true, reflect_mirror_inter, mirror_scene_hit]
  intro heq
  have hx := congrArg Vector.x heq
  have hspec : mirror_inter.material.specular_color = Color.white := rfl
  simp only [Vector.mul_color_def, Vector.new_eq, hspec, Color.white, mul_one] at hx
  have hwsub : wsub 0 ≠ 0 := by norm_num [wsub]
  have hge := compute_intensity_x_ge_emissive mirror_scene
    (Ray.mk ⟨20001 / 10000, 0, 0⟩ ⟨-1, 0, 0⟩)
    ((⟨⟨1, 0, 0⟩, ⟨1, 0, 0⟩, Material.create_emissive Color.red 1⟩ :
        Intersection).get_inter_nudged) (wsub 0) 0 (rsub zero_tape 0) hwsub
  have hem : ((Scene.compute_emissive
      ((⟨⟨1, 0, 0⟩, ⟨1, 0, 0⟩, Material.create_emissive Color.red 1⟩ :
          Intersection).get_inter_nudged) mirror_scene.show_emissive_surfaces 0).max
        (Vector.new_eq 0)).x = 1 := by
    unfold Scene.compute_emissive Intersection.get_inter_nudged Vector.max
      Vector.new_eq
    norm_num [mirror_scene, Material.create_emissive, Color.red]
  rw [hem] at hge
  linarith

/-- Claim C7 (amended): `compute_mirror` at zero remaining bounces returns zero
radiance whenever the material's mirror flag is unset or the reflected ray
intersects no object. -/
theorem compute_mirror_zero_bounces_miss (S : Scene) (ray : Ray)
    (inter : Intersection) (t : ℝ) (s : ℕ → ℝ)
    (h : inter.material.mirror = false ∨
      S.compute_intersection (ray.reflect inter) t = none) :
    S.compute_mirror ray inter 0 t s = Vector.new_eq 0 := by
  rw [Scene.compute_mirror]
  rcases h with h | h
  · simp [h]
  · by_cases hm : inter.material.mirror
    · simp [hm, h]
    · simp [hm]

/-- Witness for the amended claim C7: in the empty scene the reflected ray hits
nothing and `compute_mirror` at zero bounces returns zero. -/
theorem compute_mirror_zero_bounces_miss_witness :
    (mirror_inter.material.mirror = false ∨
        empty_scene.compute_intersection (ray_ex.reflect mirror_inter) 0 = none) ∧
      empty_scene.compute_mirror ray_ex mirror_inter 0 0 zero_tape =
        Vector.new_eq 0 := by
  have h : empty_scene.compute_intersection (ray_ex.reflect mirror_inter) 0 =
      none := by
    unfold Scene.compute_intersection
    simp [empty_scene]
  exact ⟨Or.inr h,
    compute_mirror_zero_bounces_miss empty_scene ray_ex mirror_inter 0 zero_tape
      (Or.inr h)⟩

theorem tie_sphere_animations : tie_sphere.animations = [] := rfl

theorem tie_shadow_ray : shadow_test_ray ⟨0, 0, 0⟩ tie_light 0 =
    Ray.mk ⟨0, 0, 0⟩ ⟨1, 0, 0⟩ := by
  unfold shadow_test_ray light_animated_pos Ray.normalize Vector.normalize
    Vector.norm Vector.norm_sq
  simp only [tie_light, Ray.apply_animations_nil]
  norm_num [sqrt_four]

theorem tie_sphere_delta : tie_sphere.delta (Ray.mk ⟨0, 0, 0⟩ ⟨1, 0, 0⟩) = 4 := by
  unfold Sphere.delta Vector.norm_sq Vector.dot
  norm_num [tie_sphere]

theorem tie_sphere_t1 : tie_sphere.t1 (Ray.mk ⟨0, 0, 0⟩ ⟨1, 0, 0⟩) = 2 := by
  unfold Sphere.t1
  rw [tie_sphere_delta, sqrt_four]
  unfold Vector.norm_sq Vector.dot
  norm_num [tie_sphere]

theorem tie_sphere_t2 : tie_sphere.t2 (Ray.mk ⟨0, 0, 0⟩ ⟨1, 0, 0⟩) = 4 := by
  unfold Sphere.t2
  rw [tie_sphere_delta, sqrt_four]
  unfold Vector.norm_sq Vector.dot
  norm_num [tie_sphere]

theorem tie_sphere_hit : tie_sphere.intersection (Ray.mk ⟨0, 0, 0⟩ ⟨1, 0, 0⟩) =
    some ⟨⟨2, 0, 0⟩, ⟨-1, 0, 0⟩, Material.create_diffuse Color.red⟩ := by
  unfold Sphere.intersection
  rw [tie_sphere_delta, tie_sphere_t1, tie_sphere_t2]
  norm_num
  unfold Ray.get_point Vector.normalize Vector.norm Vector.norm_sq
  norm_num [tie_sphere, Real.sqrt_one]

/-- Claim C6 counterexample: with the light exactly on the sphere's surface the
only intersection lies at exactly the light's distance — not strictly closer —
yet `compute_shadows` reports the light shadowed, because the source compares
with `<=` rather than `<`. -/
theorem compute_shadows_tie : tie_scene.compute_shadows ⟨0, 0, 0⟩ tie_light 0 = false ∧
    ¬ claim_occluder tie_scene ⟨0, 0, 0⟩ tie_light 0 := by
  constructor
  · unfold Scene.compute_shadows
    simp only [tie_scene, tie_light, Sphere.to_obj, List.foldl_cons, List.foldl_nil,
      tie_sphere_animations, Ray.reverse_animations_nil, Ray.apply_animations_nil]
    have hray : Ray.normalize
        (Ray.mk (⟨0, 0, 0⟩ : Vector) ((⟨2, 0, 0⟩ : Vector) - (⟨0, 0, 0⟩ : Vector))) =
          Ray.mk ⟨0, 0, 0⟩ ⟨1, 0, 0⟩ := by
      unfold Ray.normalize Vector.normalize Vector.norm Vector.norm_sq
      norm_num [sqrt_four]
    simp only [hray, tie_sphere_hit]
    rw [if_pos]
    unfold Vector.norm_sq
    norm_num
  · rintro ⟨o, ho, i, hi, hlt⟩
    simp only [tie_scene, List.mem_singleton] at ho
    subst ho
    rw [tie_shadow_ray] at hi
    simp only [Sphere.to_obj] at hi
    rw [tie_sphere_hit] at hi
    obtain rfl : (⟨⟨2, 0, 0⟩, ⟨-1, 0, 0⟩, Material.create_diffuse Color.red⟩ :
        Intersection) = i := Option.some.inj hi
    unfold light_animated_pos Vector.norm_sq at hlt
    simp only [tie_light, Ray.apply_animations_nil] at hlt
    norm_num at hlt

theorem shadow_foldl_iff (R : Ray) (point lc : Vector) (t : ℝ) :
    ∀ (objs : List Obj), (∀ o ∈ objs, o.get_animations = []) → ∀ (b : Bool),
      ((objs.foldl (fun light_visible obj =>
          let r1 := R.reverse_animations obj.get_animations t
          let col := obj.intersection r1
          let r2 := r1.apply_animations obj.get_animations t
          match col with
          | some inter =>
              if (inter.point - r2.origin).norm_sq ≤ (point - lc).norm_sq then false
              else light_visible
          | none => light_visible) b) = true ↔
        (b = true ∧ ∀ o ∈ objs, ∀ i, o.intersection R = some i →
          ¬ (i.point - R.origin).norm_sq ≤ (point - lc).norm_sq)) := by
  intro objs
  induction objs with
  | nil => intro _ b; simp
  | cons o rest ih =>
      intro hobj b
      have ho : o.get_animations = [] := hobj o (by simp)
      have hrest : ∀ o' ∈ rest, o'.get_animations = [] := fun o' h' =>
        hobj o' (by simp [h'])
      simp only [List.foldl_cons, ho, Ray.reverse_animations_nil,
        Ray.apply_animations_nil]
      rcases h : o.intersection R with _ | i
      · rw [ih hrest b]
        simp [List.forall_mem_cons, h]
      · dsimp only
        by_cases hc : (i.point - R.origin).norm_sq ≤ (point - lc).norm_sq
        · rw [if_pos hc, ih hrest false]
          simp only [List.forall_mem_cons, h]
          constructor
          · rintro ⟨hfalse, -⟩
            exact absurd hfalse (by simp)
          · rintro ⟨-, hhead, -⟩
            exact absurd hc (hhead i rfl)
        · rw [if_neg hc, ih hrest b]
          simp only [List.forall_mem_cons, h]
          constructor
          · rintro ⟨hb, hrest'⟩
            refine ⟨hb, ?_, hrest'⟩
            rintro i' hi'
            obtain rfl := Option.some.inj hi'
            exact hc
          · rintro ⟨hb, -, hrest'⟩
            exact ⟨hb, hrest'⟩

/-- Claim C6 (amended): for scenes whose objects carry no animations,
`compute_shadows` returns visible (true) if and only if no object's
intersection along the ray from the point toward the light's animated position
lies at squared distance from the point less than or equal to the squared
distance from the point to the light's un-animated center (an intersection at
exactly the light's distance also shadows). -/
theorem compute_shadows_visible_iff (S : Scene) (point : Vector) (l : Light)
    (t : ℝ) (hobj : ∀ o ∈ S.objects, o.get_animations = []) :
    S.compute_shadows point l t = true ↔
      ∀ o ∈ S.objects, ∀ i, o.intersection (shadow_test_ray point l t) = some i →
        ¬ (i.point - point).norm_sq ≤ (point - l.center).norm_sq := by
  unfold Scene.compute_shadows
  have key := shadow_foldl_iff (shadow_test_ray point l t) point l.center t
    S.objects hobj true
  constructor
  · intro hv
    exact (key.mp hv).2
  · intro hno
    exact key.mpr ⟨rfl, hno⟩

/-- Witness for the amended claim C6, instantiated on the tie scene. -/
theorem compute_shadows_visible_iff_witness :
    (∀ o ∈ tie_scene.objects, o.get_animations = []) ∧
      (tie_scene.compute_shadows ⟨0, 0, 0⟩ tie_light 0 = true ↔
        ∀ o ∈ tie_scene.objects, ∀ i,
          o.intersection (shadow_test_ray ⟨0, 0, 0⟩ tie_light 0) = some i →
            ¬ (i.point - ⟨0, 0, 0⟩).norm_sq ≤
              ((⟨0, 0, 0⟩ : Vector) - tie_light.center).norm_sq) := by
  have hobj : ∀ o ∈ tie_scene.objects, o.get_animations = [] := by
    intro o ho
    simp only [tie_scene, List.mem_singleton] at ho
    subst ho
    rfl
  exact ⟨hobj, compute_shadows_visible_iff tie_scene ⟨0, 0, 0⟩ tie_light 0 hobj⟩

theorem light_a_weight : light_sphere_a.to_obj.get_material.emissivity /
    light_sphere_a.to_obj.get_surface_area = 1 / (4 * Real.pi) := by
  simp [Sphere.to_obj, light_sphere_a, Sphere.get_surface_area,
    Material.create_emissive]

theorem light_b_weight : light_sphere_b.to_obj.get_material.emissivity /
    light_sphere_b.to_obj.get_surface_area = 3 / (4 * Real.pi) := by
  simp [Sphere.to_obj, light_sphere_b, Sphere.get_surface_area,
    Material.create_emissive]

theorem two_light_x : (9 / 10 : ℝ) *
    ((1 : ℝ) / (4 * Real.pi) + (3 / (4 * Real.pi) + 0)) = 9 / (10 * Real.pi) := by
  have hpi := Real.pi_ne_zero
  field_simp
  ring

theorem x_gt_weight_a : (1 : ℝ) / (4 * Real.pi) < 9 / (10 * Real.pi) := by
  rw [div_lt_div_iff (by positivity) (by positivity)]
  nlinarith [Real.pi_pos]

theorem x_gt_weight_b : (3 : ℝ) / (4 * Real.pi) < 9 / (10 * Real.pi) := by
  rw [div_lt_div_iff (by positivity) (by positivity)]
  nlinarith [Real.pi_pos]

/-- Claim C2 counterevidence: with two light objects of weights 1/(4 pi) and
3/(4 pi) and the uniform draw 0.9, the selection loop of `compute_direct`
(which compares `rand * sum` against each individual weight rather than a
cumulative sum) selects no light object at all and the direct term contributes
zero, whereas the inverse-CDF rule over the cumulative sum stated by the spec
selects the second light object. -/
theorem compute_direct_selects_no_light :
    select_light_obj two_light_scene.light_objects
        (tape09 0 * (two_light_scene.light_objects.map
          (fun o => o.get_material.emissivity / o.get_surface_area)).sum) = none ∧
      select_light_obj_cdf two_light_scene.light_objects
        (tape09 0 * (two_light_scene.light_objects.map
          (fun o => o.get_material.emissivity / o.get_surface_area)).sum) =
        some light_sphere_b.to_obj ∧
      two_light_scene.compute_direct ray_ex dummy_inter 5 0 tape09 =
        Vector.mk 0 0 0 := by
  have htape : tape09 0 = 9 / 10 := by norm_num [tape09]
  have hsum : (two_light_scene.light_objects.map
      (fun o => o.get_material.emissivity / o.get_surface_area)).sum =
      (1 : ℝ) / (4 * Real.pi) + (3 / (4 * Real.pi) + 0) := by
    simp only [two_light_scene, List.map_cons, List.map_nil, List.sum_cons,
      List.sum_nil, light_a_weight, light_b_weight]
  have hx : tape09 0 * (two_light_scene.light_objects.map
      (fun o => o.get_material.emissivity / o.get_surface_area)).sum =
      9 / (10 * Real.pi) := by
    rw [htape, hsum, two_light_x]
  have hna : ¬ (9 / (10 * Real.pi) ≤ 1 / (4 * Real.pi)) :=
    not_le.mpr x_gt_weight_a
  have hnb : ¬ (9 / (10 * Real.pi) ≤ 3 / (4 * Real.pi)) :=
    not_le.mpr x_gt_weight_b
  have hsel : select_light_obj two_light_scene.light_objects
      (9 / (10 * Real.pi)) = none := by
    show select_light_obj [light_sphere_a.to_obj, light_sphere_b.to_obj]
      (9 / (10 * Real.pi)) = none
    rw [select_light_obj, light_a_weight, if_neg hna,
      select_light_obj, light_b_weight, if_neg hnb, select_light_obj]
  refine ⟨by rw [hx]; exact hsel, ?_, ?_⟩
  · rw [hx]
    show select_light_obj_cdf [light_sphere_a.to_obj, light_sphere_b.to_obj]
      (9 / (10 * Real.pi)) = some light_sphere_b.to_obj
    rw [select_light_obj_cdf]
    simp only [light_a_weight]
    rw [if_neg hna, select_light_obj_cdf]
    simp only [light_b_weight]
    rw [if_pos]
    rw [div_sub_div _ _ (by positivity) (by positivity), div_le_div_iff
      (by positivity) (by positivity)]
    nlinarith [Real.pi_pos, sq_nonneg Real.pi]
  · rw [Scene.compute_direct.eq_def]
    simp only [hx, hsel]

theorem Vector.norm_sq_nonneg (v : Vector) : 0 ≤ v.norm_sq := by
  unfold Vector.norm_sq
  nlinarith [mul_self_nonneg v.x, mul_self_nonneg v.y, mul_self_nonneg v.z]

theorem Vector.norm_sq_eq_zero_iff (v : Vector) :
    v.norm_sq = 0 ↔ v = ⟨0, 0, 0⟩ := by
  unfold Vector.norm_sq
  constructor
  · intro h
    have hx : v.x = 0 := by nlinarith [sq_nonneg v.x, sq_nonneg v.y, sq_nonneg v.z]
    have hy : v.y = 0 := by nlinarith [sq_nonneg v.x, sq_nonneg v.y, sq_nonneg v.z]
    have hz : v.z = 0 := by nlinarith [sq_nonneg v.x, sq_nonneg v.y, sq_nonneg v.z]
    ext <;> assumption
  · intro h
    rw [h]
    norm_num

theorem Vector.norm_sq_pos_of_ne_zero (v : Vector) (h : v ≠ ⟨0, 0, 0⟩) :
    0 < v.norm_sq :=
  lt_of_le_of_ne (Vector.norm_sq_nonneg v)
    (fun h0 => h ((Vector.norm_sq_eq_zero_iff v).mp h0.symm))

theorem sphere_quad_eq (s : Sphere) (r : Ray) (u : ℝ) :
    ((r.origin + r.direction * u) - s.center).norm_sq - s.radius * s.radius =
      r.direction.norm_sq * u ^ 2 +
        (2 * r.direction.dot (r.origin - s.center)) * u +
        ((r.origin - s.center).norm_sq - s.radius * s.radius) := by
  unfold Vector.norm_sq Vector.dot
  simp only [Vector.add_def, Vector.sub_def, Vector.mul_real_def]
  ring

theorem quad_factor (a b c : ℝ) (ha : 0 < a) (hdelta : 0 ≤ b * b - 4 * a * c)
    (u : ℝ) :
    a * u ^ 2 + b * u + c =
      a * (u - (-b - Real.sqrt (b * b - 4 * a * c)) / (2 * a)) *
        (u - (-b + Real.sqrt (b * b - 4 * a * c)) / (2 * a)) := by
  have ha' : (a : ℝ) ≠ 0 := ne_of_gt ha
  set q := Real.sqrt (b * b - 4 * a * c) with hqdef
  have hq : q * q = b * b - 4 * a * c := Real.mul_self_sqrt hdelta
  have expand : a * (u - (-b - q) / (2 * a)) * (u - (-b + q) / (2 * a)) =
      a * u ^ 2 + b * u + (b * b - q * q) / (4 * a) := by
    field_simp
    ring
  rw [expand, hq]
  field_simp

theorem quad_roots (a b c : ℝ) (ha : 0 < a) (hdelta : 0 ≤ b * b - 4 * a * c)
    (u : ℝ) :
    a * u ^ 2 + b * u + c = 0 ↔
      u = (-b - Real.sqrt (b * b - 4 * a * c)) / (2 * a) ∨
        u = (-b + Real.sqrt (b * b - 4 * a * c)) / (2 * a) := by
  rw [quad_factor a b c ha hdelta u]
  rw [mul_eq_zero, mul_eq_zero]
  simp [ne_of_gt ha, sub_eq_zero]

theorem quad_no_root (a b c : ℝ) (ha : 0 < a) (hdelta : b * b - 4 * a * c < 0)
    (u : ℝ) : a * u ^ 2 + b * u + c ≠ 0 := by
  intro h
  nlinarith [sq_nonneg (2 * a * u + b)]

theorem Vector.norm_sq_div (v : Vector) (k : ℝ) :
    (v / k).norm_sq = v.norm_sq / (k * k) := by
  unfold Vector.norm_sq
  simp only [Vector.div_real_def]
  rw [div_mul_div_comm, div_mul_div_comm, div_mul_div_comm, div_add_div_same,
    div_add_div_same]

/-- Claim C8: `Sphere::intersection` returns a hit exactly when the quadratic
norm-squared equation has a non-negative root; the hit uses the smallest
non-negative root, its point lies at distance exactly the radius from the
center, and its normal is the outward unit radial vector; it reports a miss
exactly when the discriminant is negative or both roots are negative. -/
theorem sphere_intersection_correct (s : Sphere) (r : Ray) (hR : 0 < s.radius)
    (hd : r.direction ≠ ⟨0, 0, 0⟩) :
    ((s.intersection r).isSome ↔
        ∃ u : ℝ, 0 ≤ u ∧ ((r.origin + r.direction * u) - s.center).norm_sq =
          s.radius * s.radius) ∧
      (s.intersection r = none ↔
        s.delta r < 0 ∨ (s.t1 r < 0 ∧ s.t2 r < 0)) ∧
      (∀ i, s.intersection r = some i →
        ∃ u : ℝ, 0 ≤ u ∧
          ((r.origin + r.direction * u) - s.center).norm_sq =
            s.radius * s.radius ∧
          (∀ v : ℝ, 0 ≤ v →
            ((r.origin + r.direction * v) - s.center).norm_sq =
              s.radius * s.radius → u ≤ v) ∧
          i.point = r.get_point u ∧
          (i.point - s.center).norm = s.radius ∧
          i.normal = (i.point - s.center) / s.radius ∧
          i.normal.norm = 1) := by
  have ha : 0 < r.direction.norm_sq := Vector.norm_sq_pos_of_ne_zero _ hd
  have hdel : s.delta r =
      (2 * r.direction.dot (r.origin - s.center)) *
          (2 * r.direction.dot (r.origin - s.center)) -
        4 * r.direction.norm_sq *
          ((r.origin - s.center).norm_sq - s.radius * s.radius) := rfl
  have ht1 : s.t1 r =
      (-(2 * r.direction.dot (r.origin - s.center)) - Real.sqrt (s.delta r)) /
        (2 * r.direction.norm_sq) := rfl
  have ht2 : s.t2 r =
      (-(2 * r.direction.dot (r.origin - s.center)) + Real.sqrt (s.delta r)) /
        (2 * r.direction.norm_sq) := rfl
  have hquad : ∀ u : ℝ,
      (((r.origin + r.direction * u) - s.center).norm_sq =
          s.radius * s.radius) ↔
        r.direction.norm_sq * u ^ 2 +
            (2 * r.direction.dot (r.origin - s.center)) * u +
            ((r.origin - s.center).norm_sq - s.radius * s.radius) = 0 := by
    intro u
    have hident := sphere_quad_eq s r u
    constructor
    · intro h
      rw [← hident, h, sub_self]
    · intro h
      have h2 : ((r.origin + r.direction * u) - s.center).norm_sq -
          s.radius * s.radius = 0 := by rw [hident]; exact h
      linarith
  by_cases h1 : s.delta r ≥ 0
  · have hdelta0 : 0 ≤
        (2 * r.direction.dot (r.origin - s.center)) *
            (2 * r.direction.dot (r.origin - s.center)) -
          4 * r.direction.norm_sq *
            ((r.origin - s.center).norm_sq - s.radius * s.radius) := by
      rw [← hdel]; exact h1
    have hroots : ∀ u : ℝ,
        (r.direction.norm_sq * u ^ 2 +
            (2 * r.direction.dot (r.origin - s.center)) * u +
            ((r.origin - s.center).norm_sq - s.radius * s.radius) = 0) ↔
          (u = s.t1 r ∨ u = s.t2 r) := by
      intro u
      rw [ht1, ht2, hdel]
      exact quad_roots _ _ _ ha hdelta0 u
    have ht12 : s.t1 r ≤ s.t2 r := by
      rw [ht1, ht2, div_le_div_iff_of_pos_right (by positivity)]
      linarith [Real.sqrt_nonneg (s.delta r)]
    by_cases h2 : s.t2 r ≥ 0
    · have hres : s.intersection r = some
          ⟨r.get_point (if s.t1 r < 0 then s.t2 r else s.t1 r),
            ((r.get_point (if s.t1 r < 0 then s.t2 r else s.t1 r)) -
              s.center).normalize, s.material⟩ := by
        unfold Sphere.intersection
        rw [if_pos h1, if_pos h2]
      have htmin_nonneg : 0 ≤ (if s.t1 r < 0 then s.t2 r else s.t1 r) := by
        by_cases h3 : s.t1 r < 0
        · rw [if_pos h3]; exact h2
        · rw [if_neg h3]; exact not_lt.mp h3
      have htmin_root : (if s.t1 r < 0 then s.t2 r else s.t1 r) = s.t1 r ∨
          (if s.t1 r < 0 then s.t2 r else s.t1 r) = s.t2 r := by
        by_cases h3 : s.t1 r < 0
        · rw [if_pos h3]; exact Or.inr rfl
        · rw [if_neg h3]; exact Or.inl rfl
      have htmin_quad : ((r.origin + r.direction *
          (if s.t1 r < 0 then s.t2 r else s.t1 r)) - s.center).norm_sq =
          s.radius * s.radius :=
        (hquad _).mpr ((hroots _).mpr htmin_root)
      have htmin_min : ∀ v, 0 ≤ v →
          ((r.origin + r.direction * v) - s.center).norm_sq =
            s.radius * s.radius →
          (if s.t1 r < 0 then s.t2 r else s.t1 r) ≤ v := by
        intro v hv hvq
        rcases (hroots v).mp ((hquad v).mp hvq) with hv1 | hv2
        · by_cases h3 : s.t1 r < 0
          · exact absurd (hv1 ▸ hv) (by rw [not_le]; exact h3)
          · rw [if_neg h3, hv1]
        · by_cases h3 : s.t1 r < 0
          · rw [if_pos h3, hv2]
          · rw [if_neg h3, hv2]; exact ht12
      refine ⟨?_, ?_, ?_⟩
      · rw [hres]
        simp only [Option.isSome_some, true_iff]
        exact ⟨_, htmin_nonneg, htmin_quad⟩
      · rw [hres]
        constructor
        · intro h
          exact Option.noConfusion h
        · rintro (hneg | ⟨-, ht2neg⟩)
          · linarith
          · exact absurd h2 (by rw [not_le]; exact ht2neg)
      · intro i hi
        rw [hres] at hi
        obtain rfl := (Option.some.inj hi).symm
        have hnorm : (r.get_point (if s.t1 r < 0 then s.t2 r else s.t1 r) -
            s.center).norm = s.radius := by
          unfold Vector.norm
          rw [show (r.get_point (if s.t1 r < 0 then s.t2 r else s.t1 r) -
              s.center).norm_sq = s.radius * s.radius from htmin_quad]
          exact Real.sqrt_mul_self hR.le
        refine ⟨(if s.t1 r < 0 then s.t2 r else s.t1 r), htmin_nonneg,
          htmin_quad, htmin_min, rfl, hnorm, ?_, ?_⟩
        · unfold Vector.normalize
          rw [hnorm]
        · unfold Vector.normalize
          rw [hnorm]
          unfold Vector.norm
          rw [Vector.norm_sq_div,
            show (r.get_point (if s.t1 r < 0 then s.t2 r else s.t1 r) -
              s.center).norm_sq = s.radius * s.radius from htmin_quad,
            div_self (by positivity), Real.sqrt_one]
    · have hres : s.intersection r = none := by
        unfold Sphere.intersection
        rw [if_pos h1, if_neg h2]
      have ht2neg : s.t2 r < 0 := not_le.mp h2
      refine ⟨?_, ?_, ?_⟩
      · rw [hres]
        simp only [Option.isSome_none, Bool.false_eq_true, false_iff]
        rintro ⟨u, hu, huq⟩
        rcases (hroots u).mp ((hquad u).mp huq) with h | h <;> subst h
        · linarith
        · linarith
      · rw [hres]
        exact ⟨fun _ => Or.inr ⟨by linarith, ht2neg⟩, fun _ => rfl⟩
      · intro i hi
        rw [hres] at hi
        exact Option.noConfusion hi
  · have hdelneg : s.delta r < 0 := not_le.mp h1
    have hres : s.intersection r = none := by
      unfold Sphere.intersection
      rw [if_neg h1]
    have hdelneg' :
        (2 * r.direction.dot (r.origin - s.center)) *
            (2 * r.direction.dot (r.origin - s.center)) -
          4 * r.direction.norm_sq *
            ((r.origin - s.center).norm_sq - s.radius * s.radius) < 0 := by
      rw [← hdel]; exact hdelneg
    refine ⟨?_, ?_, ?_⟩
    · rw [hres]
      simp only [Option.isSome_none, Bool.false_eq_true, false_iff]
      rintro ⟨u, -, huq⟩
      exact quad_no_root _ _ _ ha hdelneg' u ((hquad u).mp huq)
    · rw [hres]
      exact ⟨fun _ => Or.inl hdelneg, fun _ => rfl⟩
    · intro i hi
      rw [hres] at hi
      exact Option.noConfusion hi

/-- Witness for claim C8: the unit sphere and a ray from (2,0,0) aimed back at
the origin satisfy the hypotheses (positive radius, nonzero direction). -/
theorem sphere_intersection_correct_witness :
    (0 < unit_sphere.radius ∧ ray_w.direction ≠ ⟨0, 0, 0⟩) ∧
      (((unit_sphere.intersection ray_w).isSome ↔
          ∃ u : ℝ, 0 ≤ u ∧
            ((ray_w.origin + ray_w.direction * u) - unit_sphere.center).norm_sq =
              unit_sphere.radius * unit_sphere.radius) ∧
        (unit_sphere.intersection ray_w = none ↔
          unit_sphere.delta ray_w < 0 ∨
            (unit_sphere.t1 ray_w < 0 ∧ unit_sphere.t2 ray_w < 0)) ∧
        (∀ i, unit_sphere.intersection ray_w = some i →
          ∃ u : ℝ, 0 ≤ u ∧
            ((ray_w.origin + ray_w.direction * u) - unit_sphere.center).norm_sq =
              unit_sphere.radius * unit_sphere.radius ∧
            (∀ v : ℝ, 0 ≤ v →
              ((ray_w.origin + ray_w.direction * v) -
                  unit_sphere.center).norm_sq =
                unit_sphere.radius * unit_sphere.radius → u ≤ v) ∧
            i.point = ray_w.get_point u ∧
            (i.point - unit_sphere.center).norm = unit_sphere.radius ∧
            i.normal = (i.point - unit_sphere.center) / unit_sphere.radius ∧
            i.normal.norm = 1)) := by
  have hR : 0 < unit_sphere.radius := by norm_num [unit_sphere]
  have hd : ray_w.direction ≠ ⟨0, 0, 0⟩ := by
    simp [ray_w, Vector.mk.injEq]
  exact ⟨⟨hR, hd⟩, sphere_intersection_correct unit_sphere ray_w hR hd⟩

end RayTracer
